import Mathlib

/-!
Verification development for the simcpp20 discrete-event simulation kernel.

The embedding follows the source:
- `EvState`, `EvData` and the operations on `EvData` embed the class
  `simcpp20::event` of `include/fschuetz04/simcpp20/event.hpp` (the shared
  record `event::data` holding `state_`, `handles_`, `cbs_`, together with the
  member functions `trigger`, `abort`, `add_callback`, the four state
  predicates, `process`, `await_ready`, `await_suspend`).  Coroutine handles
  and callbacks are identified by natural numbers; an operation returns, next
  to the new record, the externally visible effects (which handles were
  resumed or destroyed, which callbacks were fired, whether
  `simulation::schedule` was called).
- `scheduled_event` and `scheduled_event.gt` embed
  `simcpp20/scheduled_event.cpp`.
- The `World` model combines these with the scheduler described in the
  specification (`schedule`, `timeout`, `step`, `run` are not part of the
  sources; they are modelled from the spec where marked) and with process
  bodies modelled as lists of await statements, following the coroutine
  protocol of `event::promise_type`.
-/

set_option linter.unusedVariables false

/-- State of an event, from the enum `event::state` in the source. -/
inductive EvState
  | pending
  | triggered
  | processed
  | aborted
deriving DecidableEq, Repr

/-- Shared data of an event, from the class `event::data` in the source:
the state, the handles of coroutines awaiting the event, and the callbacks
added to the event (handles and callbacks are identified by numbers). -/
structure EvData where
  state_ : EvState
  handles_ : List Nat
  cbs_ : List Nat
deriving DecidableEq, Repr

/-- A freshly constructed event: state `pending`, no handles, no callbacks. -/
def evInit : EvData := ⟨EvState.pending, [], []⟩

instance : Inhabited EvData := ⟨evInit⟩

/-- Embeds `event::processed`. -/
def EvData.processed (d : EvData) : Bool := decide (d.state_ = EvState.processed)

/-- Embeds `event::pending`. -/
def EvData.pending (d : EvData) : Bool := decide (d.state_ = EvState.pending)

/-- Embeds `event::triggered`: true for state `triggered` and for `processed`. -/
def EvData.triggered (d : EvData) : Bool :=
  decide (d.state_ = EvState.triggered) || d.processed

/-- Embeds `event::aborted`. -/
def EvData.aborted (d : EvData) : Bool := decide (d.state_ = EvState.aborted)

/-- Embeds `event::trigger`: if the event is not pending, nothing is done;
otherwise `sim.schedule(*this)` is called and the state is set to `triggered`.
The boolean records whether `schedule` was called. -/
def EvData.trigger (d : EvData) : EvData × Bool :=
  if !d.pending then (d, false)
  else ({ d with state_ := EvState.triggered }, true)

/-- Embeds `event::abort`: if the event is not pending, nothing is done;
otherwise the state is set to `aborted`, every awaiting handle is destroyed
and the handle and callback lists are cleared.  The returned list holds the
destroyed handles. -/
def EvData.abort (d : EvData) : EvData × List Nat :=
  if !d.pending then (d, [])
  else ({ d with state_ := EvState.aborted, handles_ := [], cbs_ := [] },
        d.handles_)

/-- Embeds `event::add_callback`: ignored when the event is already processed
or aborted, otherwise the callback is appended. -/
def EvData.add_callback (cb : Nat) (d : EvData) : EvData :=
  if d.processed || d.aborted then d
  else { d with cbs_ := d.cbs_ ++ [cb] }

/-- Embeds `event::process`: if the event is already processed or aborted,
nothing is done; otherwise the state is set to `processed`, every awaiting
handle is resumed in registration order and the handle list is cleared, then
every callback is fired in registration order and the callback list is
cleared.  The returned lists hold the resumed handles and fired callbacks. -/
def EvData.process (d : EvData) : EvData × List Nat × List Nat :=
  if d.processed || d.aborted then (d, [], [])
  else ({ d with state_ := EvState.processed, handles_ := [], cbs_ := [] },
        d.handles_, d.cbs_)

/-- Embeds `event::await_ready`: the awaiting coroutine is suspended exactly
when this is false. -/
def EvData.await_ready (d : EvData) : Bool := d.processed

/-- Embeds `event::await_suspend`: if the event is aborted the handle is
destroyed immediately, otherwise it is appended to the handle list.  The
boolean records whether the handle was destroyed. -/
def EvData.await_suspend (h : Nat) (d : EvData) : EvData × Bool :=
  if d.aborted then (d, true)
  else ({ d with handles_ := d.handles_ ++ [h] }, false)

/-- The operations client code and the scheduler can apply to one event.
`coAwait h` is the compiler's `co_await` protocol: check `await_ready`, and
only when it is false call `await_suspend h`. -/
inductive Act
  | trigger
  | abort
  | process
  | add_callback (cb : Nat)
  | coAwait (h : Nat)
deriving DecidableEq, Repr

/-- Result of applying one operation: the new shared data plus the externally
visible effects of the operation. -/
structure ActResult where
  d : EvData
  resumed : List Nat
  fired : List Nat
  enqueued : Bool
  destroyed : List Nat
deriving DecidableEq, Repr

/-- Apply one operation to the shared data of an event, recording effects. -/
def applyAct : Act → EvData → ActResult
  | Act.trigger, d =>
    let r := EvData.trigger d
    ⟨r.1, [], [], r.2, []⟩
  | Act.abort, d =>
    let r := EvData.abort d
    ⟨r.1, [], [], false, r.2⟩
  | Act.process, d =>
    let r := EvData.process d
    ⟨r.1, r.2.1, r.2.2, false, []⟩
  | Act.add_callback cb, d => ⟨EvData.add_callback cb d, [], [], false, []⟩
  | Act.coAwait h, d =>
    if d.await_ready then ⟨d, [], [], false, []⟩
    else
      let r := EvData.await_suspend h d
      ⟨r.1, [], [], false, if r.2 then [h] else []⟩

/-- Run a sequence of operations on an event. -/
def runActs : EvData → List Act → EvData
  | d, [] => d
  | d, a :: as => runActs (applyAct a d).d as

/-- All handles resumed over a sequence of operations, in order. -/
def resumedTrace : EvData → List Act → List Nat
  | _, [] => []
  | d, a :: as => (applyAct a d).resumed ++ resumedTrace (applyAct a d).d as

/-- All callbacks fired over a sequence of operations, in order. -/
def firedTrace : EvData → List Act → List Nat
  | _, [] => []
  | d, a :: as => (applyAct a d).fired ++ firedTrace (applyAct a d).d as

/-- Number of times the event is enqueued (`simulation::schedule` calls made
by `trigger`) over a sequence of operations. -/
def enqTrace : EvData → List Act → Nat
  | _, [] => 0
  | d, a :: as =>
    (if (applyAct a d).enqueued then 1 else 0) + enqTrace (applyAct a d).d as

/-- Handles passed to the `co_await` protocol in a sequence of operations. -/
def suspendArgs : List Act → List Nat
  | [] => []
  | Act.coAwait h :: as => h :: suspendArgs as
  | _ :: as => suspendArgs as

/-- Callbacks passed to `add_callback` in a sequence of operations. -/
def cbArgs : List Act → List Nat
  | [] => []
  | Act.add_callback cb :: as => cb :: cbArgs as
  | _ :: as => cbArgs as

/-- The sequence of states an event passes through under a sequence of
operations, starting with the current state. -/
def stateTrace : EvData → List Act → List EvState
  | _, [] => []
  | d, a :: as => (applyAct a d).d.state_ :: stateTrace (applyAct a d).d as

def stateHist (d : EvData) (as : List Act) : List EvState :=
  d.state_ :: stateTrace d as

/-- Adjacent-pair check of a transition relation along a list of states. -/
def chainOk (R : EvState → EvState → Bool) : List EvState → Bool
  | [] => true
  | [_] => true
  | s :: s' :: rest => R s s' && chainOk R (s' :: rest)

/-- The transition relation claimed by the specification:
`pending → triggered → processed`, or `pending → aborted`, with `processed`
and `aborted` terminal (plus staying put). -/
def specStepOk : EvState → EvState → Bool
  | EvState.pending, EvState.triggered => true
  | EvState.pending, EvState.aborted => true
  | EvState.triggered, EvState.processed => true
  | s, s' => decide (s = s')

/-- The transition relation the code actually follows: additionally a pending
event can be processed directly (a pending event can sit in the scheduler
queue, as every process completion event and every timeout event does, and
`event::process` only refuses already-processed or aborted events). -/
def codeStepOk : EvState → EvState → Bool
  | EvState.pending, EvState.triggered => true
  | EvState.pending, EvState.aborted => true
  | EvState.pending, EvState.processed => true
  | EvState.triggered, EvState.processed => true
  | s, s' => decide (s = s')

/-- One entry of the scheduler queue, from `simcpp20/scheduled_event.cpp`:
the scheduled time, the (sequence) id, and the event (by store index). -/
structure scheduled_event where
  time_ : Int
  id : Nat
  ev_ : Nat
deriving DecidableEq, Repr

/-- Embeds `scheduled_event::time`. -/
def scheduled_event.time (e : scheduled_event) : Int := e.time_

/-- Embeds `scheduled_event::operator>`: greater time, ties broken by greater
id. -/
def scheduled_event.gt (a b : scheduled_event) : Bool :=
  if a.time ≠ b.time then decide (a.time > b.time) else decide (a.id > b.id)

/-- Entry `a` is processed before entry `b`: `a` is smaller in the strict
order underlying `operator>`, i.e. `b > a`. -/
def scheduled_event.before (a b : scheduled_event) : Bool :=
  scheduled_event.gt b a

/-- Pick the smaller entry under `operator>`, keeping the first on a tie:
this is the element a min-priority-queue built on `operator>` yields. -/
def pickMin (a b : scheduled_event) : scheduled_event :=
  if scheduled_event.gt a b then b else a

/-- Remove the first occurrence of an entry from the queue. -/
def eraseFirst : List scheduled_event → scheduled_event → List scheduled_event
  | [], _ => []
  | x :: xs, y => if x = y then xs else x :: eraseFirst xs y

/-- Modelled from the spec: the scheduler's queue is min-ordered under
`scheduled_event::operator>`; popping yields the smallest entry and the
remaining queue. -/
def popMin : List scheduled_event → Option (scheduled_event × List scheduled_event)
  | [] => none
  | x :: xs =>
    let m := xs.foldl pickMin x
    some (m, eraseFirst (x :: xs) m)

/-- One await statement of a process body: either `co_await sim.timeout(d)`
or `co_await` on an existing event given by its store index. -/
inductive BodyStep
  | awaitTimeout (delay : Int)
  | awaitEv (ev : Nat)
deriving DecidableEq, Repr

/-- One coroutine: the completion event `promise_type::ev_` and the await
statements of the body still to be executed. -/
structure Coro where
  ev_ : Nat
  steps : List BodyStep
deriving DecidableEq, Repr

instance : Inhabited Coro := ⟨⟨0, []⟩⟩

/-- The whole simulation state: the clock, the sequence counter, the queue,
the store of event records (an index models the `shared_ptr` to
`event::data`), the coroutines (a coroutine's index is its handle), and
instrumentation logs recording, with the current time, every handle
resumption, every body completion (`return_void`), every event processing,
and every callback firing. -/
structure World where
  now : Int
  nextId : Nat
  queue : List scheduled_event
  evs : List EvData
  coros : List Coro
  resumeLog : List (Nat × Int)
  finishLog : List (Nat × Int)
  processLog : List (Nat × Int)
  cbLog : List (Nat × Int)
deriving DecidableEq, Repr

/-- The empty simulation: time 0, nothing scheduled. -/
def World.empty : World := ⟨0, 0, [], [], [], [], [], [], []⟩

/-- Read an event record from the store. -/
def World.getEv (w : World) (i : Nat) : EvData := w.evs.getD i default

/-- Write an event record to the store. -/
def World.setEv (w : World) (i : Nat) (d : EvData) : World :=
  { w with evs := w.evs.set i d }

/-- Modelled from the spec: `simulation::schedule` pushes an entry for the
event at `now + delay` with the next sequence number. -/
def World.schedule (w : World) (i : Nat) (delay : Int) : World :=
  { w with queue := w.queue ++ [⟨w.now + delay, w.nextId, i⟩],
           nextId := w.nextId + 1 }

/-- Create a fresh pending event in the store, returning its index. -/
def World.newEvent (w : World) : World × Nat :=
  ({ w with evs := w.evs ++ [evInit] }, w.evs.length)

/-- Embeds `event::trigger` at the simulation level: `sim.schedule(*this)`
with delay 0 when the event was pending. -/
def World.trigger (w : World) (i : Nat) : World :=
  let r := EvData.trigger (w.getEv i)
  if r.2 then (w.schedule i 0).setEv i r.1 else w

/-- Modelled from the spec: `simulation::timeout` creates a fresh pending
event, schedules it with the given delay, and returns it. -/
def World.timeout (w : World) (delay : Int) : World × Nat :=
  let r := w.newEvent
  ((r.1).schedule r.2 delay, r.2)

/-- Store the remaining body of a coroutine. -/
def World.setCoroSteps (w : World) (c : Nat) (ss : List BodyStep) : World :=
  { w with coros := w.coros.set c ⟨(w.coros.getD c default).ev_, ss⟩ }

/-- Embeds `event::promise_type::return_void` (trigger the completion event)
followed by `final_suspend`; the completion of the body is logged. -/
def World.returnVoid (w : World) (c : Nat) : World :=
  let w := { w with finishLog := w.finishLog ++ [(c, w.now)] }
  w.trigger (w.coros.getD c default).ev_

/-- The compiler's `co_await` protocol on event `i` for the coroutine with
handle `c`: check `event::await_ready`; when false, call
`event::await_suspend`.  Returns the new world and whether execution
continues synchronously. -/
def World.awaitOn (w : World) (c : Nat) (i : Nat) : World × Bool :=
  let d := w.getEv i
  if d.await_ready then (w, true)
  else
    let r := EvData.await_suspend c d
    if r.2 then (w, false) else (w.setEv i r.1, false)

/-- Run the body of coroutine `c` from the given remaining await statements:
execute each statement; at a `co_await` whose event is not ready, suspend;
when the statements are exhausted, `return_void` runs. -/
def World.stepBody (w : World) (c : Nat) : List BodyStep → World
  | [] => w.returnVoid c
  | BodyStep.awaitTimeout dl :: rest =>
    let r := w.timeout dl
    let w := (r.1).setCoroSteps c rest
    let s := w.awaitOn c r.2
    if s.2 then (s.1).stepBody c rest else s.1
  | BodyStep.awaitEv i :: rest =>
    let w := w.setCoroSteps c rest
    let s := w.awaitOn c i
    if s.2 then (s.1).stepBody c rest else s.1

/-- Resume a coroutine handle (`std::coroutine_handle::resume`): log the
resumption and run the body from its remaining statements. -/
def World.resumeHandle (w : World) (h : Nat) : World :=
  let w := { w with resumeLog := w.resumeLog ++ [(h, w.now)] }
  w.stepBody h (w.coros.getD h default).steps

/-- Embeds `event::process` at the simulation level: refuse terminal events;
otherwise set the state to `processed`, resume every awaiting handle in
order, then fire every callback in order, clearing both lists. -/
def World.process (w : World) (i : Nat) : World :=
  let d := w.getEv i
  if d.processed || d.aborted then w
  else
    let w := w.setEv i { d with state_ := EvState.processed, handles_ := [],
                                cbs_ := [] }
    let w := { w with processLog := w.processLog ++ [(i, w.now)] }
    let w := d.handles_.foldl World.resumeHandle w
    { w with cbLog := w.cbLog ++ d.cbs_.map (fun cb => (cb, w.now)) }

/-- Modelled from the spec: `simulation::step` pops the earliest entry,
advances `now` to its time, and processes its event. -/
def World.step (w : World) : World :=
  match popMin w.queue with
  | none => w
  | some (e, q) => World.process { w with now := e.time, queue := q } e.ev_

/-- Modelled from the spec: `simulation::run` repeats `step` while the queue
is non-empty (fuel-bounded). -/
def World.run : Nat → World → World
  | 0, w => w
  | n + 1, w => if w.queue.isEmpty then w else World.run n w.step

/-- Embeds creating a process (the coroutine machinery of
`event::promise_type`): the promise constructs the completion event `ev_`;
`initial_suspend` schedules `ev_` itself with delay 0 and returns it, so the
coroutine `co_await`s `ev_` before running any body code;
`get_return_object` hands `ev_` back to the creator. -/
def World.createProcess (w : World) (steps : List BodyStep) : World × Nat :=
  let r := w.newEvent
  let i := r.2
  let c := (r.1).coros.length
  let w := { r.1 with coros := (r.1).coros ++ [(⟨i, steps⟩ : Coro)] }
  let w := w.schedule i 0
  let s := w.awaitOn c i
  let w := if s.2 then (s.1).stepBody c steps else s.1
  (w, i)

/-- A world holding one process with an empty body, not yet run: its
completion event (store index 0) is scheduled at creation while pending. -/
def c2World : World := (World.empty.createProcess []).1

/-- Four events scheduled (via `timeout`) at times 5, 1, 1, 3 in that call
order, receiving store indices 0, 1, 2, 3 and sequence ids 0, 1, 2, 3, then
run to completion. -/
def c4World : World :=
  let a := (World.empty.timeout 5).1
  let b := (a.timeout 1).1
  let c := (b.timeout 1).1
  let d := (c.timeout 3).1
  World.run 6 d

/-- A world with two processes, run to completion.  Coroutine 0 (the
awaiter) has body `co_await` on event 1, which is the completion event of
coroutine 1; coroutine 1 (the worker) has body `co_await sim.timeout(5)`,
so its body finishes at time 5. -/
def c1World : World :=
  let r1 := World.empty.createProcess [BodyStep.awaitEv 1]
  let r2 := (r1.1).createProcess [BodyStep.awaitTimeout 5]
  World.run 10 r2.1

/-- A world holding one freshly created process whose body awaits a timeout
of 5, before any scheduler step. -/
def c8World : World := (World.empty.createProcess [BodyStep.awaitTimeout 5]).1

/-- Semantic domain for what a promise does with an unhandled failure
thrown by the coroutine body: terminate the whole program, propagate the
exception out of `resume` so it surfaces to the caller of `run`, or swallow
it. -/
inductive FailureBehavior
  | abortProgram
  | surfaceToRunCaller
  | swallow
deriving DecidableEq, Repr

/-- Embeds `event::promise_type::unhandled_exception`, whose entire body is
`assert(false)`: a defensive, non-recoverable check that terminates the
whole program. -/
def unhandled_exception : FailureBehavior := FailureBehavior.abortProgram

/-- A handle to an event — the class `simcpp20::event` seen as a value:
`data_` models the `shared_ptr<data>` member (the pointer value is an index
into a store of shared records). -/
structure event where
  data_ : Nat
deriving DecidableEq, Repr

/-- Embeds the copy constructor `event(const event&)`: the shared pointer
is copied, no new shared record is created. -/
def event.copy (e : event) : event := ⟨e.data_⟩

/-- Embeds the copy assignment `operator=`: `data_ = other.data_`. -/
def event.assign (e other : event) : event := ⟨other.data_⟩

/-- Embeds `event::operator==`: handles compare equal exactly when the
shared pointers are equal. -/
def event.beq (a b : event) : Bool := decide (a.data_ = b.data_)

/-- The heap of shared `event::data` records, addressed by pointer. -/
abbrev Store := Nat → EvData

/-- Overwrite the record a pointer refers to. -/
def Store.write (s : Store) (i : Nat) (d : EvData) : Store :=
  fun j => if j = i then d else s j

/-- Embeds `event::pending` read through a handle. -/
def event.pendingIn (s : Store) (e : event) : Bool := (s e.data_).pending

/-- Embeds `event::triggered` read through a handle. -/
def event.triggeredIn (s : Store) (e : event) : Bool := (s e.data_).triggered

/-- Embeds `event::processed` read through a handle. -/
def event.processedIn (s : Store) (e : event) : Bool := (s e.data_).processed

/-- Embeds `event::aborted` read through a handle. -/
def event.abortedIn (s : Store) (e : event) : Bool := (s e.data_).aborted

/-- Embeds `event::trigger` called through a handle: mutates the shared record. -/
def event.triggerIn (s : Store) (e : event) : Store :=
  Store.write s e.data_ (EvData.trigger (s e.data_)).1

/-- Embeds `event::abort` called through a handle: mutates the shared record. -/
def event.abortIn (s : Store) (e : event) : Store :=
  Store.write s e.data_ (EvData.abort (s e.data_)).1

/-- Embeds `event::process` called through a handle: mutates the shared record. -/
def event.processIn (s : Store) (e : event) : Store :=
  Store.write s e.data_ (EvData.process (s e.data_)).1

/-- A concrete store (every record fresh) for witnesses. -/
def c10Store : Store := fun _ => evInit

/-- The handles an operation passes to the `co_await` protocol. -/
def actSuspendArg : Act → List Nat
  | Act.coAwait h => [h]
  | _ => []

/-- The callbacks an operation passes to `add_callback`. -/
def actCbArg : Act → List Nat
  | Act.add_callback cb => [cb]
  | _ => []

theorem suspendArgs_cons (a : Act) (as : List Act) :
    suspendArgs (a :: as) = actSuspendArg a ++ suspendArgs as := by
  cases a <;> rfl

theorem cbArgs_cons (a : Act) (as : List Act) :
    cbArgs (a :: as) = actCbArg a ++ cbArgs as := by
  cases a <;> rfl

theorem applyAct_codeStep (a : Act) (d : EvData) :
    codeStepOk d.state_ (applyAct a d).d.state_ = true := by
  obtain ⟨s, hs, cbs⟩ := d
  cases a <;> cases s <;>
    simp [applyAct, EvData.trigger, EvData.abort, EvData.process,
      EvData.add_callback, EvData.await_ready, EvData.await_suspend,
      EvData.pending, EvData.processed, EvData.aborted, codeStepOk]

theorem stateHist_cons (d : EvData) (a : Act) (as : List Act) :
    stateHist d (a :: as) = d.state_ :: stateHist (applyAct a d).d as := rfl

theorem chainOk_stateHist (as : List Act) :
    ∀ d : EvData, chainOk codeStepOk (stateHist d as) = true := by
  induction as with
  | nil => intro d; rfl
  | cons a as ih =>
    intro d
    rw [stateHist_cons]
    have h1 := ih (applyAct a d).d
    have h2 := applyAct_codeStep a d
    rw [stateHist] at h1 ⊢
    rw [chainOk, h1, h2]
    rfl

theorem applyAct_resumed_handles (a : Act) (d : EvData) (h : Nat) :
    ((applyAct a d).resumed).count h + ((applyAct a d).d.handles_).count h ≤
      d.handles_.count h + (actSuspendArg a).count h := by
  obtain ⟨s, hs, cbs⟩ := d
  cases a <;> cases s <;>
    simp [applyAct, actSuspendArg, EvData.trigger, EvData.abort,
      EvData.process, EvData.add_callback, EvData.await_ready,
      EvData.await_suspend, EvData.pending, EvData.processed,
      EvData.aborted, List.count_append]

theorem applyAct_fired_cbs (a : Act) (d : EvData) (cb : Nat) :
    ((applyAct a d).fired).count cb + ((applyAct a d).d.cbs_).count cb ≤
      d.cbs_.count cb + (actCbArg a).count cb := by
  obtain ⟨s, hs, cbs⟩ := d
  cases a <;> cases s <;>
    simp [applyAct, actCbArg, EvData.trigger, EvData.abort,
      EvData.process, EvData.add_callback, EvData.await_ready,
      EvData.await_suspend, EvData.pending, EvData.processed,
      EvData.aborted, List.count_append]

theorem resumedTrace_count_le (as : List Act) :
    ∀ (d : EvData) (h : Nat),
      (resumedTrace d as).count h ≤
        d.handles_.count h + (suspendArgs as).count h := by
  induction as with
  | nil => intro d h; simp [resumedTrace, suspendArgs]
  | cons a as ih =>
    intro d h
    have h1 := ih (applyAct a d).d h
    have h2 := applyAct_resumed_handles a d h
    rw [resumedTrace, suspendArgs_cons]
    rw [List.count_append, List.count_append]
    omega

theorem firedTrace_count_le (as : List Act) :
    ∀ (d : EvData) (cb : Nat),
      (firedTrace d as).count cb ≤ d.cbs_.count cb + (cbArgs as).count cb := by
  induction as with
  | nil => intro d cb; simp [firedTrace, cbArgs]
  | cons a as ih =>
    intro d cb
    have h1 := ih (applyAct a d).d cb
    have h2 := applyAct_fired_cbs a d cb
    rw [firedTrace, cbArgs_cons]
    rw [List.count_append, List.count_append]
    omega

theorem applyAct_terminal_fix (a : Act) (d : EvData)
    (hd : (d.processed || d.aborted) = true) :
    (applyAct a d).d = d ∧ (applyAct a d).resumed = [] ∧
      (applyAct a d).fired = [] ∧ (applyAct a d).enqueued = false := by
  obtain ⟨s, hs, cbs⟩ := d
  cases a <;> cases s <;>
    simp_all [applyAct, EvData.trigger, EvData.abort, EvData.process,
      EvData.add_callback, EvData.await_ready, EvData.await_suspend,
      EvData.pending, EvData.processed, EvData.aborted]

theorem runActs_terminal_lists (as : List Act) :
    ∀ d : EvData,
      ((d.processed || d.aborted) = true → d.handles_ = [] ∧ d.cbs_ = []) →
      ((runActs d as).processed || (runActs d as).aborted) = true →
      (runActs d as).handles_ = [] ∧ (runActs d as).cbs_ = [] := by
  induction as with
  | nil => intro d hd; exact hd
  | cons a as ih =>
    intro d hd
    rw [runActs]
    refine ih (applyAct a d).d ?_
    intro ht
    obtain ⟨s, hs, cbs⟩ := d
    cases a <;> cases s <;>
      simp_all [applyAct, EvData.trigger, EvData.abort, EvData.process,
        EvData.add_callback, EvData.await_ready, EvData.await_suspend,
        EvData.pending, EvData.processed, EvData.aborted]

theorem applyAct_aborted_fix (a : Act) (d : EvData)
    (hd : d.state_ = EvState.aborted) :
    (applyAct a d).d = d ∧ (applyAct a d).resumed = [] ∧
      (applyAct a d).fired = [] := by
  obtain ⟨s, hs, cbs⟩ := d
  cases a <;> cases s <;>
    simp_all [applyAct, EvData.trigger, EvData.abort, EvData.process,
      EvData.add_callback, EvData.await_ready, EvData.await_suspend,
      EvData.pending, EvData.processed, EvData.aborted]

theorem runActs_aborted (as : List Act) :
    ∀ d : EvData, d.state_ = EvState.aborted →
      (runActs d as).state_ = EvState.aborted ∧
        resumedTrace d as = [] ∧ firedTrace d as = [] := by
  induction as with
  | nil => intro d hd; exact ⟨hd, rfl, rfl⟩
  | cons a as ih =>
    intro d hd
    obtain ⟨he, hr, hf⟩ := applyAct_aborted_fix a d hd
    rw [runActs, resumedTrace, firedTrace, hr, hf, he]
    obtain ⟨i1, i2, i3⟩ := ih d hd
    exact ⟨i1, by simpa using i2, by simpa using i3⟩

theorem applyAct_enqueued_not_pending (a : Act) (d : EvData)
    (hd : (applyAct a d).enqueued = true) :
    (applyAct a d).d.state_ ≠ EvState.pending := by
  obtain ⟨s, hs, cbs⟩ := d
  cases a <;> cases s <;>
    simp_all [applyAct, EvData.trigger, EvData.abort, EvData.process,
      EvData.add_callback, EvData.await_ready, EvData.await_suspend,
      EvData.pending, EvData.processed, EvData.aborted]

theorem applyAct_not_pending (a : Act) (d : EvData)
    (hd : d.state_ ≠ EvState.pending) :
    (applyAct a d).d.state_ ≠ EvState.pending := by
  obtain ⟨s, hs, cbs⟩ := d
  cases a <;> cases s <;>
    simp_all [applyAct, EvData.trigger, EvData.abort, EvData.process,
      EvData.add_callback, EvData.await_ready, EvData.await_suspend,
      EvData.pending, EvData.processed, EvData.aborted]

theorem applyAct_nonpending_no_enq (a : Act) (d : EvData)
    (hd : d.state_ ≠ EvState.pending) : (applyAct a d).enqueued = false := by
  obtain ⟨s, hs, cbs⟩ := d
  cases a <;> cases s <;>
    simp_all [applyAct, EvData.trigger, EvData.abort, EvData.process,
      EvData.add_callback, EvData.await_ready, EvData.await_suspend,
      EvData.pending, EvData.processed, EvData.aborted]

theorem enqTrace_nonpending (as : List Act) :
    ∀ d : EvData, d.state_ ≠ EvState.pending → enqTrace d as = 0 := by
  induction as with
  | nil => intro d _; rfl
  | cons a as ih =>
    intro d hd
    rw [enqTrace, applyAct_nonpending_no_enq a d hd,
      ih _ (applyAct_not_pending a d hd)]
    simp

theorem enqTrace_le_one (as : List Act) : ∀ d : EvData, enqTrace d as ≤ 1 := by
  induction as with
  | nil => intro d; simp [enqTrace]
  | cons a as ih =>
    intro d
    rw [enqTrace]
    by_cases hp : (applyAct a d).enqueued = true
    · rw [enqTrace_nonpending as _ (applyAct_enqueued_not_pending a d hp)]
      simp [hp]
    · simp only [Bool.not_eq_true] at hp
      rw [hp]
      simpa using ih (applyAct a d).d

/-- C2 counterexample: the specified state machine
`pending → triggered → processed` / `pending → aborted` is violated: an
event can move from `pending` directly to `processed` without passing
through `triggered`.  At the level of the event operations, applying
`event::process` to a fresh pending event yields the one-step history
`[pending, processed]`, which the claimed transition relation rejects; at
the level of the whole program, the completion event of a process is
scheduled while pending at creation, so the very first scheduler step
processes it directly from `pending`. -/
theorem c2_counterexample :
    chainOk specStepOk (stateHist evInit [Act.process]) = false ∧
    stateHist evInit [Act.process] = [EvState.pending, EvState.processed] ∧
    (c2World.getEv 0).state_ = EvState.pending ∧
    ((c2World.step).getEv 0).state_ = EvState.processed ∧
    specStepOk EvState.pending EvState.processed = false := by
  decide

/-- C2 (amended): every reachable event state history follows the state
machine `pending → triggered → processed`, `pending → processed` (a pending
event scheduled directly, as every process completion event is), or
`pending → aborted`; `processed` and `aborted` are terminal.  `codeStepOk`
is exactly this relation: it extends the claimed one by the single arc
`pending → processed`, and both terminal states admit no outgoing arc. -/
theorem c2_state_machine :
    (∀ (d : EvData) (as : List Act),
      chainOk codeStepOk (stateHist d as) = true) ∧
    (∀ s : EvState, codeStepOk EvState.processed s = decide (s = EvState.processed)) ∧
    (∀ s : EvState, codeStepOk EvState.aborted s = decide (s = EvState.aborted)) ∧
    (∀ s s' : EvState, specStepOk s s' = true → codeStepOk s s' = true) ∧
    codeStepOk EvState.pending EvState.processed = true := by
  refine ⟨fun d as => chainOk_stateHist as d, ?_, ?_, ?_, rfl⟩
  · intro s; cases s <;> rfl
  · intro s; cases s <;> rfl
  · intro s s'; cases s <;> cases s' <;> simp [specStepOk, codeStepOk]

/-- C2 witness for the amended theorem's hypothesis-bearing conjunct. -/
theorem c2_witness :
    codeStepOk EvState.pending EvState.triggered = true :=
  c2_state_machine.2.2.2.1 EvState.pending EvState.triggered (by decide)

/-- C3: once an event is terminal (`processed` or `aborted`), no operation
(`trigger`, `abort`, `process`, `add_callback`, nor the `co_await` protocol)
changes its shared data; over any operation sequence from a fresh event,
each registered waiter is resumed at most as often as it was registered and
each registered callback is fired at most as often as it was added (so a
handle or callback registered once fires at most once); and whenever a
reachable event is terminal, its waiter and callback lists are empty (they
are cleared by `process` and by `abort` and never refilled). -/
theorem c3_terminal_and_at_most_once :
    (∀ (a : Act) (d : EvData), (d.processed || d.aborted) = true →
      (applyAct a d).d = d) ∧
    (∀ (as : List Act) (h : Nat),
      (resumedTrace evInit as).count h ≤ (suspendArgs as).count h) ∧
    (∀ (as : List Act) (cb : Nat),
      (firedTrace evInit as).count cb ≤ (cbArgs as).count cb) ∧
    (∀ as : List Act,
      ((runActs evInit as).processed || (runActs evInit as).aborted) = true →
      (runActs evInit as).handles_ = [] ∧ (runActs evInit as).cbs_ = []) := by
  refine ⟨fun a d hd => (applyAct_terminal_fix a d hd).1, ?_, ?_, ?_⟩
  · intro as h
    have := resumedTrace_count_le as evInit h
    simpa [evInit] using this
  · intro as cb
    have := firedTrace_count_le as evInit cb
    simpa [evInit] using this
  · intro as
    exact runActs_terminal_lists as evInit (by intro h; exact ⟨rfl, rfl⟩)

/-- C3 witness: the terminal-freeze and cleared-lists conjuncts applied at
concrete inputs. -/
theorem c3_witness :
    (applyAct Act.trigger ⟨EvState.processed, [], []⟩).d =
      ⟨EvState.processed, [], []⟩ ∧
    (runActs evInit [Act.coAwait 3, Act.add_callback 4, Act.process]).handles_
      = [] :=
  ⟨c3_terminal_and_at_most_once.1 Act.trigger ⟨EvState.processed, [], []⟩
      (by decide),
   (c3_terminal_and_at_most_once.2.2.2
      [Act.coAwait 3, Act.add_callback 4, Act.process] (by decide)).1⟩

/-- C5: calling `event::trigger` a second (or any later) time has no effect:
after one `trigger` the event is no longer pending, so the second call
changes nothing and does not call `simulation::schedule` again; over any
operation sequence from a fresh event, `trigger` enqueues the event at most
once, and each callback added once is fired at most once regardless of how
many `trigger` operations appear. -/
theorem c5_trigger_at_most_once :
    (∀ d : EvData,
      EvData.trigger (EvData.trigger d).1 = ((EvData.trigger d).1, false)) ∧
    (∀ as : List Act, enqTrace evInit as ≤ 1) ∧
    (∀ (as : List Act) (cb : Nat),
      (firedTrace evInit as).count cb ≤ (cbArgs as).count cb) := by
  refine ⟨?_, fun as => enqTrace_le_one as evInit, ?_⟩
  · intro d
    obtain ⟨s, hs, cbs⟩ := d
    cases s <;>
      simp [EvData.trigger, EvData.pending]
  · intro as cb
    have := firedTrace_count_le as evInit cb
    simpa [evInit] using this

/-- C6: aborting a pending event makes `aborted() = true`,
`triggered() = false`, `processed() = false`, and keeps them so under every
later operation sequence; moreover no later operation ever resumes a waiter
or fires a callback of the event (its handle and callback lists were cleared
by `abort`, and `process` refuses aborted events). -/
theorem c6_abort_permanent :
    ∀ d : EvData, d.pending = true →
      ((EvData.abort d).1.aborted = true ∧
       (EvData.abort d).1.triggered = false ∧
       (EvData.abort d).1.processed = false) ∧
      (∀ as : List Act,
        (runActs (EvData.abort d).1 as).aborted = true ∧
        (runActs (EvData.abort d).1 as).triggered = false ∧
        (runActs (EvData.abort d).1 as).processed = false ∧
        resumedTrace (EvData.abort d).1 as = [] ∧
        firedTrace (EvData.abort d).1 as = []) := by
  intro d hd
  have habort : (EvData.abort d).1.state_ = EvState.aborted := by
    obtain ⟨s, hs, cbs⟩ := d
    cases s <;> simp_all [EvData.abort, EvData.pending]
  constructor
  · refine ⟨?_, ?_, ?_⟩ <;>
      simp [EvData.aborted, EvData.triggered, EvData.processed, habort]
  · intro as
    obtain ⟨h1, h2, h3⟩ := runActs_aborted as (EvData.abort d).1 habort
    refine ⟨?_, ?_, ?_, h2, h3⟩ <;>
      simp [EvData.aborted, EvData.triggered, EvData.processed, h1]

/-- C6 witness: aborting a concrete pending event with one waiter and one
callback, then running further operations, never resumes or fires. -/
theorem c6_witness :
    resumedTrace (EvData.abort ⟨EvState.pending, [7], [3]⟩).1
      [Act.trigger, Act.process, Act.coAwait 9, Act.add_callback 4] = [] ∧
    (runActs (EvData.abort ⟨EvState.pending, [7], [3]⟩).1
      [Act.trigger, Act.process, Act.coAwait 9, Act.add_callback 4]).aborted
      = true :=
  ⟨((c6_abort_permanent ⟨EvState.pending, [7], [3]⟩ (by decide)).2
      [Act.trigger, Act.process, Act.coAwait 9, Act.add_callback 4]).2.2.2.1,
   ((c6_abort_permanent ⟨EvState.pending, [7], [3]⟩ (by decide)).2
      [Act.trigger, Act.process, Act.coAwait 9, Act.add_callback 4]).1⟩

/-- C7: the await contract.  `await_ready` is true exactly for a processed
event, and then the `co_await` protocol changes nothing (no suspension, no
queue interaction); on an aborted event the continuation is destroyed
immediately and the event never resumes anything later; otherwise the
continuation is appended to the waiter list and the coroutine stays
suspended (no resumption, no enqueue). -/
theorem c7_await_contract :
    ∀ (d : EvData) (h : Nat),
      (EvData.await_ready d = true ↔ d.state_ = EvState.processed) ∧
      (d.state_ = EvState.processed →
        applyAct (Act.coAwait h) d = ⟨d, [], [], false, []⟩) ∧
      (d.state_ = EvState.aborted →
        applyAct (Act.coAwait h) d = ⟨d, [], [], false, [h]⟩ ∧
        ∀ as : List Act, resumedTrace d as = []) ∧
      (d.state_ ≠ EvState.processed → d.state_ ≠ EvState.aborted →
        applyAct (Act.coAwait h) d =
          ⟨{ d with handles_ := d.handles_ ++ [h] }, [], [], false, []⟩) := by
  intro d h
  refine ⟨?_, ?_, ?_, ?_⟩
  · simp [EvData.await_ready, EvData.processed]
  · intro hp
    simp [applyAct, EvData.await_ready, EvData.processed, hp]
  · intro ha
    refine ⟨?_, fun as => (runActs_aborted as d ha).2.1⟩
    simp [applyAct, EvData.await_ready, EvData.await_suspend, EvData.processed,
      EvData.aborted, ha]
  · intro hp ha
    simp [applyAct, EvData.await_ready, EvData.await_suspend, EvData.processed,
      EvData.aborted, hp, ha]

theorem scheduled_event.gt_iff (a b : scheduled_event) :
    scheduled_event.gt a b = true ↔
      (b.time_ < a.time_ ∨ (a.time_ = b.time_ ∧ b.id < a.id)) := by
  simp only [scheduled_event.gt, scheduled_event.time, ne_eq,
    decide_eq_true_eq]
  split_ifs with h
  · simp only [decide_eq_true_eq]
    omega
  · simp only [decide_eq_true_eq]
    omega

/-- C4: the order on scheduled queue entries given by
`scheduled_event::operator>` is a strict total order (transitive,
asymmetric, and total up to equal time and sequence id), an entry with
smaller time comes first, entries with equal time come in ascending
sequence-id (insertion) order, the popped entry of a two-element queue is
the smaller one, and events scheduled at times [5, 1, 1, 3] in that call
order are processed as [t=1 first-scheduled (index 1), t=1 second-scheduled
(index 2), t=3 (index 3), t=5 (index 0)]. -/
theorem c4_total_order :
    (∀ a b c : scheduled_event, scheduled_event.gt a b = true →
      scheduled_event.gt b c = true → scheduled_event.gt a c = true) ∧
    (∀ a b : scheduled_event,
      ¬(scheduled_event.gt a b = true ∧ scheduled_event.gt b a = true)) ∧
    (∀ a b : scheduled_event, scheduled_event.gt a b = true ∨
      scheduled_event.gt b a = true ∨ (a.time_ = b.time_ ∧ a.id = b.id)) ∧
    (∀ a b : scheduled_event, a.time_ < b.time_ →
      scheduled_event.before a b = true) ∧
    (∀ a b : scheduled_event, a.time_ = b.time_ → a.id < b.id →
      scheduled_event.before a b = true) ∧
    (∀ a b : scheduled_event, scheduled_event.before a b = true →
      popMin [a, b] = some (a, [b])) ∧
    c4World.processLog = [(1, 1), (2, 1), (3, 3), (0, 5)] ∧
    c4World.now = 5 := by
  refine ⟨?_, ?_, ?_, ?_, ?_, ?_, by decide, by decide⟩
  · intro a b c hab hbc
    rw [scheduled_event.gt_iff] at *
    omega
  · intro a b hab
    rw [scheduled_event.gt_iff, scheduled_event.gt_iff] at hab
    omega
  · intro a b
    by_cases h1 : scheduled_event.gt a b = true
    · exact Or.inl h1
    by_cases h2 : scheduled_event.gt b a = true
    · exact Or.inr (Or.inl h2)
    rw [scheduled_event.gt_iff] at h1 h2
    exact Or.inr (Or.inr (by omega))
  · intro a b h
    rw [scheduled_event.before, scheduled_event.gt_iff]
    omega
  · intro a b h1 h2
    rw [scheduled_event.before, scheduled_event.gt_iff]
    omega
  · intro a b h
    have hgt : scheduled_event.gt a b = false := by
      rw [scheduled_event.before, scheduled_event.gt_iff] at h
      rw [Bool.eq_false_iff, ne_eq, scheduled_event.gt_iff]
      omega
    simp [popMin, pickMin, eraseFirst, hgt]

/-- C4 witness: the ordering facts at concrete queue entries. -/
theorem c4_witness :
    scheduled_event.gt ⟨5, 0, 10⟩ ⟨1, 2, 12⟩ = true ∧
    scheduled_event.before ⟨1, 1, 4⟩ ⟨3, 2, 9⟩ = true ∧
    scheduled_event.before ⟨1, 1, 4⟩ ⟨1, 2, 9⟩ = true ∧
    popMin [⟨1, 1, 4⟩, ⟨3, 2, 9⟩] = some (⟨1, 1, 4⟩, [⟨3, 2, 9⟩]) :=
  ⟨c4_total_order.1 ⟨5, 0, 10⟩ ⟨3, 1, 11⟩ ⟨1, 2, 12⟩ (by decide) (by decide),
   c4_total_order.2.2.2.1 ⟨1, 1, 4⟩ ⟨3, 2, 9⟩ (by decide),
   c4_total_order.2.2.2.2.1 ⟨1, 1, 4⟩ ⟨1, 2, 9⟩ (by decide) (by decide),
   c4_total_order.2.2.2.2.2.1 ⟨1, 1, 4⟩ ⟨3, 2, 9⟩ (by decide)⟩

/-- C8: creating a process immediately returns its completion event (the
fresh store index, which is also the `ev_` of the new coroutine), schedules
exactly that event at the current simulation time (`now + 0`) with the next
sequence number, and runs none of the body: the stored body is still the
full statement list, the completion event is still pending with the body
suspended on it, and the resumption, completion and processing logs are
untouched.  On the concrete world `c8World` the body starts executing only
once `simulation::step` processes the scheduled completion event. -/
theorem c8_process_creation :
    (∀ (w : World) (steps : List BodyStep),
      (World.createProcess w steps).2 = w.evs.length ∧
      ((World.createProcess w steps).1).queue =
        w.queue ++ [⟨w.now + 0, w.nextId, w.evs.length⟩] ∧
      ((World.createProcess w steps).1).coros =
        w.coros ++ [⟨w.evs.length, steps⟩] ∧
      ((World.createProcess w steps).1).evs =
        w.evs ++ [⟨EvState.pending, [w.coros.length], []⟩] ∧
      ((World.createProcess w steps).1).resumeLog = w.resumeLog ∧
      ((World.createProcess w steps).1).finishLog = w.finishLog ∧
      ((World.createProcess w steps).1).processLog = w.processLog ∧
      ((World.createProcess w steps).1).now = w.now) ∧
    c8World.resumeLog = [] ∧ c8World.finishLog = [] ∧
    (c8World.step).resumeLog = [(0, 0)] ∧
    (c8World.step).coros = [⟨0, []⟩] := by
  refine ⟨?_, by decide, by decide, by decide, by decide⟩
  intro w steps
  have hget : (w.evs ++ [evInit]).getD w.evs.length default = evInit := by
    simp [List.getD_eq_getElem?_getD, List.getElem?_concat_length]
  have hset : ∀ d : EvData,
      (w.evs ++ [evInit]).set w.evs.length d = w.evs ++ [d] := by
    intro d
    simp [List.set_append_right]
  simp [World.createProcess, World.newEvent, World.schedule, World.awaitOn,
    World.getEv, World.setEv, EvData.await_ready, EvData.await_suspend,
    EvData.processed, EvData.aborted, evInit, hget, hset]

/-- C1 evidence at the failing input `c1World`: coroutine 0 awaits the
completion event (store index 1) of coroutine 1, whose body awaits a
timeout of 5.  The logs of the full run show coroutine 0 resumed at time 0
(third `resumeLog` entry), during the processing of event 1 at time 0
(`processLog` second entry) — i.e. when coroutine 1's body starts — while
coroutine 1's body finishes only at time 5 (second `finishLog` entry).  The
`trigger` issued by `return_void` at time 5 is a no-op because event 1 is
already processed, so finishing the body triggers nothing and releases
nobody: awaiters are resumed when the body starts, not upon its completion,
contradicting the claim and the source's own documentation of
`get_return_object` / `return_void`. -/
theorem c1_completion_event_bug :
    c1World.resumeLog = [(0, 0), (1, 0), (0, 0), (1, 5)] ∧
    c1World.finishLog = [(0, 0), (1, 5)] ∧
    c1World.processLog = [(0, 0), (1, 0), (2, 5)] ∧
    (c1World.getEv 1).state_ = EvState.processed := by
  decide

/-- C7 witness: the three branches of the contract at concrete events. -/
theorem c7_witness :
    applyAct (Act.coAwait 5) ⟨EvState.processed, [], []⟩ =
      ⟨⟨EvState.processed, [], []⟩, [], [], false, []⟩ ∧
    applyAct (Act.coAwait 5) ⟨EvState.aborted, [], []⟩ =
      ⟨⟨EvState.aborted, [], []⟩, [], [], false, [5]⟩ ∧
    applyAct (Act.coAwait 5) ⟨EvState.triggered, [2], []⟩ =
      ⟨⟨EvState.triggered, [2, 5], []⟩, [], [], false, []⟩ :=
  ⟨(c7_await_contract ⟨EvState.processed, [], []⟩ 5).2.1 (by decide),
   ((c7_await_contract ⟨EvState.aborted, [], []⟩ 5).2.2.1 (by decide)).1,
   (c7_await_contract ⟨EvState.triggered, [2], []⟩ 5).2.2.2 (by decide)
     (by decide)⟩


theorem EvData.trigger_triggered (d : EvData) (hd : d.pending = true) :
    (EvData.trigger d).1.triggered = true := by
  obtain ⟨s, hs, cbs⟩ := d
  cases s <;>
    simp_all [EvData.trigger, EvData.pending, EvData.triggered,
      EvData.processed]

theorem EvData.abort_aborted_true (d : EvData) (hd : d.pending = true) :
    (EvData.abort d).1.aborted = true := by
  obtain ⟨s, hs, cbs⟩ := d
  cases s <;> simp_all [EvData.abort, EvData.pending, EvData.aborted]

theorem EvData.process_processed_true (d : EvData) (hp : d.processed = false)
    (ha : d.aborted = false) : (EvData.process d).1.processed = true := by
  obtain ⟨s, hs, cbs⟩ := d
  cases s <;> simp_all [EvData.process, EvData.processed, EvData.aborted]

/-- C9 counterexample: an unhandled failure inside a process body is not
surfaced to the caller of `run()`: `promise_type::unhandled_exception` is
`assert(false)`, which terminates the whole program. -/
theorem c9_counterexample :
    decide (unhandled_exception = FailureBehavior.surfaceToRunCaller)
      = false := by
  decide

/-- C9 (amended): an unhandled failure inside a process body hits
`assert(false)` in `promise_type::unhandled_exception`: it is treated as a
non-recoverable defect that terminates the whole program (in builds with
assertions enabled), rather than being propagated to the caller of
`run()`. -/
theorem c9_assert_aborts :
    unhandled_exception = FailureBehavior.abortProgram ∧
    decide (unhandled_exception = FailureBehavior.swallow) = false := by
  exact ⟨rfl, by decide⟩

/-- C10: event handles are shared references to one underlying record: two
handles compare equal under `operator==` exactly when their shared pointers
are equal; copying or assigning a handle yields an equal handle; and for
equal handles every operation and every predicate agrees — in particular a
`trigger`, `abort` or `process` performed through one copy is observed
through the predicates of every other copy. -/
theorem c10_shared_state :
    ∀ (a b : event) (s : Store),
      (event.beq a b = true ↔ a.data_ = b.data_) ∧
      event.beq (event.copy a) a = true ∧
      event.beq (event.assign b a) a = true ∧
      (event.beq a b = true →
        event.pendingIn s a = event.pendingIn s b ∧
        event.triggeredIn s a = event.triggeredIn s b ∧
        event.processedIn s a = event.processedIn s b ∧
        event.abortedIn s a = event.abortedIn s b ∧
        event.triggerIn s a = event.triggerIn s b ∧
        event.abortIn s a = event.abortIn s b ∧
        event.processIn s a = event.processIn s b ∧
        (event.pendingIn s a = true →
          event.triggeredIn (event.triggerIn s a) b = true) ∧
        (event.pendingIn s a = true →
          event.abortedIn (event.abortIn s a) b = true) ∧
        (event.processedIn s a = false → event.abortedIn s a = false →
          event.processedIn (event.processIn s a) b = true)) := by
  intro a b s
  refine ⟨by simp [event.beq], by simp [event.beq, event.copy],
    by simp [event.beq, event.assign], ?_⟩
  intro h
  have hd : a.data_ = b.data_ := by simpa [event.beq] using h
  obtain ⟨i⟩ := a
  obtain ⟨j⟩ := b
  simp only at hd
  subst hd
  refine ⟨rfl, rfl, rfl, rfl, rfl, rfl, rfl, ?_, ?_, ?_⟩
  · intro hp
    simp only [event.triggeredIn, event.triggerIn, Store.write, if_pos rfl]
    exact EvData.trigger_triggered _ hp
  · intro hp
    simp only [event.abortedIn, event.abortIn, Store.write, if_pos rfl]
    exact EvData.abort_aborted_true _ hp
  · intro hp ha
    simp only [event.processedIn, event.processIn, Store.write, if_pos rfl]
    exact EvData.process_processed_true _ hp ha

/-- C10 witness: a copied handle is equal, and a trigger through one handle
is observed through the shared record. -/
theorem c10_witness :
    event.beq (event.copy ⟨0⟩) ⟨0⟩ = true ∧
    event.triggeredIn (event.triggerIn c10Store ⟨0⟩) ⟨0⟩ = true :=
  ⟨(c10_shared_state ⟨0⟩ ⟨0⟩ c10Store).2.1,
   ((c10_shared_state ⟨0⟩ ⟨0⟩ c10Store).2.2.2 (by decide)).2.2.2.2.2.2.2.1
     (by decide)⟩
